import Mathlib

/-!
Verification development for the routing/failover core of the
prompt-learning-server repository.

The embedded code:
* `src/main-worker.js` — class `InternalLoadBalancer` with `getNextWorker`,
  `markWorkerFailed`, `forwardRequest` (bounded retries, unhealthy set,
  Pollinations fallback for `POST /api/generate-image`).
* `src/src/loadbalancer.js` — class `ImageGenerationLoadBalancer` with
  `getNextServer`, `markServerFailed`, `generateImage`.
* `src/src/imageGenerator.js` — `getNextApiKey` (credential rotator).

Modelling conventions:
* JavaScript strings that flow into `encodeURIComponent` are modelled at the
  UTF-16 level (`JSString := List Nat`, one entry per code unit), because
  `encodeURIComponent` throws a `URIError` on an unpaired surrogate — a JS
  string state that Lean's `String` cannot represent.  Backend identifiers,
  paths and methods (plain ASCII literals in the source) are Lean `String`s.
* The JS `Set` objects (`failedWorkers` / `failedServers`) are lists used
  with set semantics (membership only).
* The `setTimeout` calls in `markWorkerFailed` / `markServerFailed` are
  modelled as pending restore timers `(id, fireTime)`; `advanceTime t`
  fires every timer whose time has come (deleting its id from the failed
  set), which is what the JS event loop does when the wall clock reaches
  `t` with no intervening operations.
* `fetch` outcomes are supplied by an environment function mapping a backend
  identifier to its (deterministic) outcome.
* Wall-clock bookkeeping that no claim depends on (`serverStats`,
  `responseTime` fields) is omitted.
-/

namespace PromptLearning

/-! ### JavaScript string model (UTF-16 code units) -/

/-- A JavaScript string: a list of UTF-16 code units (each `< 0x10000`). -/
abbrev JSString := List Nat

/-- The code units removed by JavaScript `String.prototype.trim`
(WhiteSpace and LineTerminator productions). -/
def isJsWhitespace (u : Nat) : Bool :=
  u == 0x9 || u == 0xA || u == 0xB || u == 0xC || u == 0xD || u == 0x20 ||
  u == 0xA0 || u == 0x1680 || (0x2000 ≤ u && u ≤ 0x200A) || u == 0x2028 ||
  u == 0x2029 || u == 0x202F || u == 0x205F || u == 0x3000 || u == 0xFEFF

/-- JavaScript `s.trim()`: strip leading and trailing whitespace code units. -/
def jsTrim (s : JSString) : JSString :=
  ((s.dropWhile isJsWhitespace).reverse.dropWhile isJsWhitespace).reverse

/-- Uppercase hexadecimal digit, as used by `encodeURIComponent`. -/
def hexDigit (n : Nat) : Char :=
  if n < 10 then Char.ofNat (48 + n) else Char.ofNat (55 + n)

/-- One percent-encoded byte, e.g. `%E4`. -/
def percentByte (b : Nat) : String :=
  "%" ++ String.mk [hexDigit (b / 16), hexDigit (b % 16)]

/-- UTF-8 bytes of a Unicode code point. -/
def utf8Bytes (cp : Nat) : List Nat :=
  if cp < 0x80 then [cp]
  else if cp < 0x800 then [0xC0 + cp / 0x40, 0x80 + cp % 0x40]
  else if cp < 0x10000 then
    [0xE0 + cp / 0x1000, 0x80 + cp / 0x40 % 0x40, 0x80 + cp % 0x40]
  else
    [0xF0 + cp / 0x40000, 0x80 + cp / 0x1000 % 0x40,
     0x80 + cp / 0x40 % 0x40, 0x80 + cp % 0x40]

/-- Percent-encode every UTF-8 byte of a code point. -/
def percentEncodeCp (cp : Nat) : String :=
  String.join ((utf8Bytes cp).map percentByte)

/-- Code units left unescaped by `encodeURIComponent`:
`A-Z a-z 0-9 - _ . ! ~ * ' ( )`. -/
def isUnreservedCU (u : Nat) : Bool :=
  (0x41 ≤ u && u ≤ 0x5A) || (0x61 ≤ u && u ≤ 0x7A) || (0x30 ≤ u && u ≤ 0x39) ||
  u == 0x2D || u == 0x5F || u == 0x2E || u == 0x21 || u == 0x7E ||
  u == 0x2A || u == 0x27 || u == 0x28 || u == 0x29

/-- JavaScript's global `encodeURIComponent`, over UTF-16 code units.
Unreserved ASCII passes through, surrogate pairs are combined into one code
point and UTF-8 percent-encoded, and an *unpaired* surrogate raises
`URIError: URI malformed` (modelled as `Except.error`). -/
def encodeURIComponent : JSString → Except String String
  | [] => .ok ""
  | u :: rest =>
    if isUnreservedCU u then
      match encodeURIComponent rest with
      | .ok t => .ok (String.singleton (Char.ofNat u) ++ t)
      | .error e => .error e
    else if 0xD800 ≤ u && u ≤ 0xDBFF then
      match rest with
      | [] => .error "URI malformed"
      | v :: rest2 =>
        if 0xDC00 ≤ v && v ≤ 0xDFFF then
          match encodeURIComponent rest2 with
          | .ok t =>
            .ok (percentEncodeCp (0x10000 + (u - 0xD800) * 0x400 + (v - 0xDC00)) ++ t)
          | .error e => .error e
        else .error "URI malformed"
    else if 0xDC00 ≤ u && u ≤ 0xDFFF then .error "URI malformed"
    else
      match encodeURIComponent rest with
      | .ok t => .ok (percentEncodeCp u ++ t)
      | .error e => .error e

/-! ### HTTP request / response model -/

/-- A JSON value as far as the routed code inspects it: the `prompt` field is
either a string or something the `typeof prompt === 'string'` check rejects. -/
inductive JsonVal where
  | str (s : JSString)
  | other
deriving Repr, DecidableEq

/-- The JSON body snapshot taken by `forwardRequest` (`clone.json()`). -/
structure RequestBody where
  prompt : Option JsonVal
deriving Repr, DecidableEq

/-- The parts of a `Request` the routing core reads. -/
structure Request where
  path : String
  method : String
  body : Option RequestBody
deriving Repr, DecidableEq

/-- An HTTP response together with the JSON body fields the claims inspect.
Fields that a given response's body does not carry are `none`. -/
structure Response where
  status : Nat
  statusText : String
  success : Option Bool
  imageUrl : Option String
  fallback : Option Bool
  error : Option String
  details : Option String
deriving Repr, DecidableEq

/-- The Fetch API's `response.ok`: status in the range 200–299. -/
def Response.ok (r : Response) : Bool :=
  200 ≤ r.status && r.status < 300

/-! ### `src/main-worker.js` — class `InternalLoadBalancer` -/

/-- The constant service-binding pool built in the constructor. -/
def workerBindings20 : List String :=
  ["SERVER1", "SERVER2", "SERVER3", "SERVER4", "SERVER5",
   "SERVER6", "SERVER7", "SERVER8", "SERVER9", "SERVER10",
   "SERVER11", "SERVER12", "SERVER13", "SERVER14", "SERVER15",
   "SERVER16", "SERVER17", "SERVER18", "SERVER19", "SERVER20"]

/-- Mutable state of `InternalLoadBalancer` (main-worker.js).
`restoreTimers` models the pending `setTimeout` callbacks scheduled by
`markWorkerFailed`. -/
structure InternalLoadBalancer where
  workerBindings : List String
  currentIndex : Nat
  failedWorkers : List String
  restoreTimers : List (String × Nat)
deriving Repr, DecidableEq

/-- The constructor's initial state. -/
def InternalLoadBalancer.init : InternalLoadBalancer :=
  ⟨workerBindings20, 0, [], []⟩

/-- `Set.add`: insert if not already present. -/
def setInsert (x : String) (s : List String) : List String :=
  if s.contains x then s else x :: s

/-- The filter computed at the top of `getNextWorker`:
`workerBindings.filter(b => !failedWorkers.has(b))`. -/
def InternalLoadBalancer.availableWorkers (lb : InternalLoadBalancer) : List String :=
  lb.workerBindings.filter (fun b => !lb.failedWorkers.contains b)

/-- `getNextWorker` (main-worker.js lines 30–46): if no worker is available,
clear the failed set and return the first binding; otherwise return
`availableWorkers[currentIndex % availableWorkers.length]` and increment the
cursor.  JS indexing out of an empty array yields `undefined`, modelled by
the `""` default (unreachable for the constructor's nonempty pool). -/
def InternalLoadBalancer.getNextWorker (lb : InternalLoadBalancer) :
    String × InternalLoadBalancer :=
  let availableWorkers := lb.availableWorkers
  if availableWorkers.length = 0 then
    (lb.workerBindings.headD "", { lb with failedWorkers := [] })
  else
    (availableWorkers.getD (lb.currentIndex % availableWorkers.length) "",
     { lb with currentIndex := lb.currentIndex + 1 })

/-- The `2 * 60 * 1000` ms restore delay in `markWorkerFailed`. -/
def workerRestoreDelayMs : Nat := 2 * 60 * 1000

/-- `markWorkerFailed` (main-worker.js lines 51–60): add the binding to the
failed set and schedule its removal `2 * 60 * 1000` ms from now. -/
def InternalLoadBalancer.markWorkerFailed (lb : InternalLoadBalancer)
    (workerBinding : String) (now : Nat) : InternalLoadBalancer :=
  { lb with
    failedWorkers := setInsert workerBinding lb.failedWorkers,
    restoreTimers := (workerBinding, now + workerRestoreDelayMs) :: lb.restoreTimers }

/-- The event loop reaching wall-clock time `t`: every pending `setTimeout`
whose fire time has arrived deletes its worker from the failed set. -/
def InternalLoadBalancer.advanceTime (lb : InternalLoadBalancer) (t : Nat) :
    InternalLoadBalancer :=
  { lb with
    failedWorkers := lb.failedWorkers.filter
      (fun w => !lb.restoreTimers.any (fun p => p.1 == w && decide (p.2 ≤ t))),
    restoreTimers := lb.restoreTimers.filter (fun p => !decide (p.2 ≤ t)) }

/-- Outcome of `env[workerBinding].fetch(request.clone())`:
either a resolved `Response` or a rejection carrying the error message. -/
inductive FetchOutcome where
  | resp (r : Response)
  | reject (msg : String)
deriving Repr, DecidableEq

/-- `true` when the outcome lands in the `catch` block of `forwardRequest`:
a rejected fetch, or a resolved response with `!response.ok` (which the code
turns into a thrown `Error`). -/
def isFailure : FetchOutcome → Bool
  | .resp r => !r.ok
  | .reject _ => true

/-- The `error.message` observed in the `catch` block for a failing outcome
(junk `""` for a successful response, which never reaches the catch). -/
def failMsg : FetchOutcome → String
  | .resp r => if r.ok then "" else "Worker returned status: " ++ toString r.status
  | .reject m => m

/-- `maxRetries = 3` in `forwardRequest`. -/
def maxRetries : Nat := 3

/-- The retry loop of `forwardRequest` (main-worker.js lines 80–107), with
`fuel` = number of attempts still allowed (so `attempt < maxRetries` in the
source is `fuel ≠ 0` after consuming one attempt).  Returns the successful
response if any attempt succeeded, the `lastError` message otherwise, and
the balancer state.  A failing attempt calls `markWorkerFailed` only when
attempts remain. -/
def forwardAttempts (env : String → FetchOutcome) (now : Nat) :
    Nat → InternalLoadBalancer → Option String →
    Option Response × Option String × InternalLoadBalancer
  | 0, lb, lastError => (none, lastError, lb)
  | fuel + 1, lb, lastError =>
    let sel := lb.getNextWorker
    match env sel.1 with
    | .resp r =>
      if r.ok then (some r, lastError, sel.2)
      else
        let msg := "Worker returned status: " ++ toString r.status
        let lb2 := if fuel ≠ 0 then sel.2.markWorkerFailed sel.1 now else sel.2
        forwardAttempts env now fuel lb2 (some msg)
    | .reject msg =>
      let lb2 := if fuel ≠ 0 then sel.2.markWorkerFailed sel.1 now else sel.2
      forwardAttempts env now fuel lb2 (some msg)

/-- The Pollinations fallback URL built from the encoded trimmed prompt. -/
def pollinationsUrl (encoded : String) : String :=
  "https://image.pollinations.ai/prompt/" ++ encoded

/-- The JSON body of the fallback `Response` (main-worker.js lines 122–134). -/
def mkFallbackResponse (encoded : String) : Response :=
  { status := 200, statusText := "", success := some true,
    imageUrl := some (pollinationsUrl encoded), fallback := some true,
    error := none, details := none }

/-- The 503 exhaustion `Response` (main-worker.js lines 142–152); its
`details` field is `lastError?.message || 'Unknown error'`. -/
def mk503 (lastError : Option String) : Response :=
  { status := 503, statusText := "", success := none, imageUrl := none,
    fallback := none, error := some "All internal workers unavailable",
    details := some (match lastError with
      | some m => if m == "" then "Unknown error" else m
      | none => "Unknown error") }

/-- The prompt validity check on the fallback path (main-worker.js line 117):
`prompt && typeof prompt === 'string' && prompt.trim().length > 0 &&
prompt.length <= 1000` (the `typeof` check is the `JsonVal.str` match at the
call site; the length bound applies to the *untrimmed* prompt). -/
def promptValid (prompt : JSString) : Bool :=
  !prompt.isEmpty && !(jsTrim prompt).isEmpty && decide (prompt.length ≤ 1000)

/-- `forwardRequest` (main-worker.js lines 65–153).  Runs the bounded retry
loop; on exhaustion, for `POST /api/generate-image` with a valid snapshotted
prompt it builds the Pollinations fallback response locally — the enclosing
`try`/`catch` means a `URIError` thrown by `encodeURIComponent` falls
through to the 503 — and otherwise returns the 503 with the last error. -/
def InternalLoadBalancer.forwardRequest (lb : InternalLoadBalancer)
    (request : Request) (env : String → FetchOutcome) (now : Nat) :
    Response × InternalLoadBalancer :=
  let originalRequestBody : Option RequestBody :=
    if request.method == "POST" then request.body else none
  let r := forwardAttempts env now maxRetries lb none
  match r.1 with
  | some resp => (resp, r.2.2)
  | none =>
    let fallbackResp : Option Response :=
      if request.path == "/api/generate-image" && request.method == "POST" then
        match originalRequestBody with
        | some body =>
          match body.prompt with
          | some (JsonVal.str prompt) =>
            if promptValid prompt then
              match encodeURIComponent (jsTrim prompt) with
              | .ok encoded => some (mkFallbackResponse encoded)
              | .error _ => none
            else none
          | _ => none
        | none => none
      else none
    match fallbackResp with
    | some resp => (resp, r.2.2)
    | none => (mk503 r.2.1, r.2.2)

/-- The worker selected by each successive call of `getNextWorker`, with the
state threaded through (used to state round-robin properties). -/
def selectTrace (lb : InternalLoadBalancer) : Nat → List String
  | 0 => []
  | n + 1 =>
    let sel := lb.getNextWorker
    sel.1 :: selectTrace sel.2 n

/-- The sequence of workers the retry loop of `forwardRequest` binds its
attempts to when every attempt fails (selection, then `markWorkerFailed`
while attempts remain). -/
def attemptTrace (now : Nat) : Nat → InternalLoadBalancer → List String
  | 0, _ => []
  | fuel + 1, lb =>
    let sel := lb.getNextWorker
    let lb2 := if fuel ≠ 0 then sel.2.markWorkerFailed sel.1 now else sel.2
    sel.1 :: attemptTrace now fuel lb2

/-- The `lastError` message left by the retry loop when every attempt fails:
the message of the final attempt's outcome. -/
def lastMsg (env : String → FetchOutcome) (now : Nat) :
    Nat → InternalLoadBalancer → Option String → Option String
  | 0, _, lastError => lastError
  | fuel + 1, lb, _ =>
    let sel := lb.getNextWorker
    let lb2 := if fuel ≠ 0 then sel.2.markWorkerFailed sel.1 now else sel.2
    lastMsg env now fuel lb2 (some (failMsg (env sel.1)))

/-! ### `src/src/loadbalancer.js` — class `ImageGenerationLoadBalancer` -/

/-- The constant server pool built in the constructor. -/
def servers20 : List String :=
  (List.range 20).map
    (fun i => "https://prompt-server-" ++ toString (i + 1) ++ ".prompt-tool.workers.dev")

/-- Mutable state of `ImageGenerationLoadBalancer` (loadbalancer.js).
`restoreTimers` models the pending `setTimeout` callbacks scheduled by
`markServerFailed`; the `serverStats` map (pure observability bookkeeping,
inspected by no claim) is omitted. -/
structure ImageGenerationLoadBalancer where
  servers : List String
  currentServerIndex : Nat
  failedServers : List String
  restoreTimers : List (String × Nat)
deriving Repr, DecidableEq

/-- The constructor's initial state. -/
def ImageGenerationLoadBalancer.init : ImageGenerationLoadBalancer :=
  ⟨servers20, 0, [], []⟩

/-- The shared-shape view of the loadbalancer.js state: its selection code is
line-for-line the same algorithm as main-worker.js's `getNextWorker`, so the
round-robin lemmas are proved once over `InternalLoadBalancer` and carried
across this bijection. -/
def ImageGenerationLoadBalancer.toILB (lb : ImageGenerationLoadBalancer) :
    InternalLoadBalancer :=
  ⟨lb.servers, lb.currentServerIndex, lb.failedServers, lb.restoreTimers⟩

/-- The filter computed at the top of `getNextServer`:
`servers.filter(s => !failedServers.has(s))`. -/
def ImageGenerationLoadBalancer.availableServers
    (lb : ImageGenerationLoadBalancer) : List String :=
  lb.servers.filter (fun s => !lb.failedServers.contains s)

/-- `getNextServer` (loadbalancer.js lines 60–75): same algorithm as
`getNextWorker` — reset when no server is available, otherwise round-robin
over the available subset. -/
def ImageGenerationLoadBalancer.getNextServer (lb : ImageGenerationLoadBalancer) :
    String × ImageGenerationLoadBalancer :=
  let availableServers := lb.availableServers
  if availableServers.length = 0 then
    (lb.servers.headD "", { lb with failedServers := [] })
  else
    (availableServers.getD (lb.currentServerIndex % availableServers.length) "",
     { lb with currentServerIndex := lb.currentServerIndex + 1 })

/-- The `5 * 60 * 1000` ms restore delay in `markServerFailed`. -/
def serverRestoreDelayMs : Nat := 5 * 60 * 1000

/-- `markServerFailed` (loadbalancer.js lines 80–92): add the server URL to
the failed set and schedule its removal `5 * 60 * 1000` ms from now. -/
def ImageGenerationLoadBalancer.markServerFailed (lb : ImageGenerationLoadBalancer)
    (serverUrl : String) (now : Nat) : ImageGenerationLoadBalancer :=
  { lb with
    failedServers := setInsert serverUrl lb.failedServers,
    restoreTimers := (serverUrl, now + serverRestoreDelayMs) :: lb.restoreTimers }

/-- The event loop reaching wall-clock time `t` for loadbalancer.js state. -/
def ImageGenerationLoadBalancer.advanceTime (lb : ImageGenerationLoadBalancer)
    (t : Nat) : ImageGenerationLoadBalancer :=
  { lb with
    failedServers := lb.failedServers.filter
      (fun s => !lb.restoreTimers.any (fun p => p.1 == s && decide (p.2 ≤ t))),
    restoreTimers := lb.restoreTimers.filter (fun p => !decide (p.2 ≤ t)) }

/-- The server selected by each successive call of `getNextServer`. -/
def serverTrace (lb : ImageGenerationLoadBalancer) : Nat → List String
  | 0 => []
  | n + 1 =>
    let sel := lb.getNextServer
    sel.1 :: serverTrace sel.2 n

/-- Outcome of `fetch(serverUrl + '/api/generate-image', ...)` in
`generateImage`.  `timedOut` models the catch-block predicate
`error.name === 'TimeoutError' || responseTime > timeout` for that failure
(for a resolved response it reflects `responseTime > timeout`). -/
inductive GenOutcome where
  | resp (r : Response) (timedOut : Bool)
  | reject (msg : String) (timedOut : Bool)
deriving Repr, DecidableEq

/-- The message and timeout flag observed in `generateImage`'s catch block,
or `none` when the outcome succeeds (an ok response). -/
def genFailure : GenOutcome → Option (String × Bool)
  | .resp r timedOut =>
    if r.ok then none
    else some ("HTTP " ++ toString r.status ++ ": " ++ r.statusText, timedOut)
  | .reject msg timedOut => some (msg, timedOut)

/-- The value `generateImage` returns on success:
`{...data, serverUsed, responseTime, attempt: attempt + 1}` (the wall-clock
`responseTime` field is omitted). -/
structure GenResult where
  data : Response
  serverUsed : String
  attempt : Nat
deriving Repr, DecidableEq

/-- The attempt loop of `generateImage` (loadbalancer.js lines 119–168),
with `fuel` = attempts remaining out of `maxAttempts`.  A failing attempt
calls `markServerFailed` only when the failure is timeout-like, and the
marking happens *before* the final-attempt throw, so its effect on the
failed set survives the thrown error.  Falling off the loop (only possible
when `maxAttempts = 0`) returns JS `undefined`, modelled as `.ok none`. -/
def genLoop (env : String → GenOutcome) (now maxAttempts : Nat) :
    Nat → ImageGenerationLoadBalancer →
    Except String (Option GenResult) × ImageGenerationLoadBalancer
  | 0, lb => (.ok none, lb)
  | fuel + 1, lb =>
    let sel := lb.getNextServer
    match env sel.1 with
    | .resp r timedOut =>
      if r.ok then
        (.ok (some ⟨r, sel.1, maxAttempts - fuel⟩), sel.2)
      else
        let msg := "HTTP " ++ toString r.status ++ ": " ++ r.statusText
        let lb2 := if timedOut then sel.2.markServerFailed sel.1 now else sel.2
        if fuel = 0 then
          (.error ("All " ++ toString maxAttempts ++
            " server attempts failed. Last error: " ++ msg), lb2)
        else genLoop env now maxAttempts fuel lb2
    | .reject msg timedOut =>
      let lb2 := if timedOut then sel.2.markServerFailed sel.1 now else sel.2
      if fuel = 0 then
        (.error ("All " ++ toString maxAttempts ++
          " server attempts failed. Last error: " ++ msg), lb2)
      else genLoop env now maxAttempts fuel lb2

/-- `generateImage` (loadbalancer.js lines 115–169):
`maxAttempts = Math.min(servers.length, 3)` attempts through the loop. -/
def ImageGenerationLoadBalancer.generateImage (lb : ImageGenerationLoadBalancer)
    (env : String → GenOutcome) (now : Nat) :
    Except String (Option GenResult) × ImageGenerationLoadBalancer :=
  let maxAttempts := min lb.servers.length 3
  genLoop env now maxAttempts maxAttempts lb

/-! ### `src/src/imageGenerator.js` — credential rotator -/

/-- The seven `IMAGE_ROUTER_API_KEY_*` environment slots read by
`getNextApiKey`; an absent secret is `none` (JS `undefined`). -/
structure ImageRouterEnv where
  key1 : Option String
  key2 : Option String
  key3 : Option String
  key4 : Option String
  key5 : Option String
  key6 : Option String
  key7 : Option String
deriving Repr, DecidableEq

/-- The filtered credential pool: `[env.KEY_1, ..., env.KEY_7].filter(key => key)`
— JS truthiness drops both `undefined` entries and empty strings. -/
def apiKeys (env : ImageRouterEnv) : List String :=
  ([env.key1, env.key2, env.key3, env.key4, env.key5, env.key6, env.key7].filterMap id).filter
    (fun k => !k.isEmpty)

/-- `getNextApiKey` (imageGenerator.js lines 18–36): throw
`'No API keys configured'` when the filtered pool is empty; otherwise return
`API_KEYS[apiKeyIndex]` (an out-of-range index yields JS `undefined`,
modelled by the `Option`) and store the cursor reduced modulo the pool
length. -/
def getNextApiKey (env : ImageRouterEnv) (apiKeyIndex : Nat) :
    Except String (Option String × Nat) :=
  let API_KEYS := apiKeys env
  if API_KEYS.length = 0 then .error "No API keys configured"
  else .ok (API_KEYS[apiKeyIndex]?, (apiKeyIndex + 1) % API_KEYS.length)

/-- The key produced by each successive call of `getNextApiKey`, threading
the module-level cursor (empty as soon as a call throws). -/
def keyTrace (env : ImageRouterEnv) (apiKeyIndex : Nat) : Nat → List (Option String)
  | 0 => []
  | n + 1 =>
    match getNextApiKey env apiKeyIndex with
    | .error _ => []
    | .ok (k, idx) => k :: keyTrace env idx n

/-! ### Concrete states and environments used by witnesses and counterexamples -/

/-- A backend success response. -/
def okResp : Response := ⟨200, "OK", none, none, none, none, none⟩

/-- Environment in which backends `A` and `B` fail and every other backend
answers `okResp`. -/
def envABfail : String → FetchOutcome := fun w =>
  if w == "A" then .reject "A failed"
  else if w == "B" then .reject "B failed"
  else .resp okResp

/-- Environment in which every backend's fetch rejects. -/
def envAllDown : String → FetchOutcome := fun w => .reject (w ++ " down")

/-- Pool `[A, B, C]`, all healthy, rotation cursor at `3` (the first state in
which the attempt sequence visits `A`, then `B`, then `C`). -/
def lbCursor3 : InternalLoadBalancer := ⟨["A", "B", "C"], 3, [], []⟩

/-- Pool `[A, B, C]`, all healthy, fresh cursor `0`. -/
def lbFresh : InternalLoadBalancer := ⟨["A", "B", "C"], 0, [], []⟩

/-- Pool `[A]` with `A` unhealthy: the next selection takes the
full-exhaustion reset branch. -/
def lbResetState : InternalLoadBalancer := ⟨["A"], 5, ["A"], []⟩

/-- Pool `[A, B]`, all healthy (used for the expiry witness). -/
def lbPairAB : InternalLoadBalancer := ⟨["A", "B"], 0, [], []⟩

/-- Pool `[A, B, C]` with exactly `B` unhealthy (reduced-subset witness). -/
def lbBFailed : InternalLoadBalancer := ⟨["A", "B", "C"], 0, ["B"], []⟩

/-- A routed request that is not fallback-eligible. -/
def reqHealth : Request := ⟨"/api/health", "GET", none⟩

/-- The UTF-16 code units of `"a grey square"`. -/
def pGrey : JSString :=
  [0x61, 0x20, 0x67, 0x72, 0x65, 0x79, 0x20, 0x73, 0x71, 0x75, 0x61, 0x72, 0x65]

/-- A prompt consisting of one unpaired high surrogate: it passes the
fallback validity check but makes `encodeURIComponent` throw `URIError`. -/
def pLoneSurrogate : JSString := [0xD800]

/-- `POST /api/generate-image` with prompt `"a grey square"`. -/
def reqGrey : Request := ⟨"/api/generate-image", "POST", some ⟨some (.str pGrey)⟩⟩

/-- `POST /api/generate-image` with the lone-surrogate prompt. -/
def reqSurrogate : Request :=
  ⟨"/api/generate-image", "POST", some ⟨some (.str pLoneSurrogate)⟩⟩

/-- loadbalancer.js environment in which every server fails with a
non-timeout error. -/
def envGenDown : String → GenOutcome := fun s => .reject (s ++ " down") false

/-- loadbalancer.js pool `[A, B, C]`, all healthy, fresh cursor. -/
def lbServersFresh : ImageGenerationLoadBalancer := ⟨["A", "B", "C"], 0, [], []⟩

/-- loadbalancer.js pool `[A, B, C]` with exactly `B` unhealthy. -/
def lbServersBFailed : ImageGenerationLoadBalancer := ⟨["A", "B", "C"], 0, ["B"], []⟩

/-- Credential environment with keys 1, 4, 7 set, key 3 empty, rest absent:
the filtered pool is `["k1", "k4", "k7"]`. -/
def envKeys147 : ImageRouterEnv :=
  ⟨some "k1", none, some "", some "k4", none, none, some "k7"⟩

/-- Credential environment with no keys configured. -/
def envKeysNone : ImageRouterEnv := ⟨none, none, none, none, none, none, none⟩

/-! ### Helper lemmas: list membership and `contains` -/

theorem contains_true_iff (l : List String) (x : String) :
    l.contains x = true ↔ x ∈ l := by
  simp [List.contains, List.elem_iff]

theorem contains_false_iff (l : List String) (x : String) :
    l.contains x = false ↔ x ∉ l := by
  constructor
  · intro h hx
    rw [(contains_true_iff l x).mpr hx] at h
    cases h
  · intro h
    cases hc : l.contains x
    · rfl
    · exact absurd ((contains_true_iff l x).mp hc) h

theorem mem_setInsert_self (x : String) (s : List String) : x ∈ setInsert x s := by
  unfold setInsert
  split
  · exact (contains_true_iff s x).mp (by assumption)
  · exact List.mem_cons_self x s

/-- `(List.range l.length).map (fun i => l.getD i d) = l`. -/
theorem range_map_getD (l : List String) (d : String) :
    (List.range l.length).map (fun i => l.getD i d) = l := by
  induction l with
  | nil => simp
  | cons a tl ih =>
    rw [List.length_cons, List.range_succ_eq_map, List.map_cons, List.map_map]
    simp only [List.getD_cons_zero]
    congr 1

/-- `(List.range l.length).map (fun i => l[i]?) = l.map some`. -/
theorem range_map_getElemOpt (l : List String) :
    (List.range l.length).map (fun i => l[i]?) = l.map some := by
  induction l with
  | nil => simp
  | cons a tl ih =>
    rw [List.length_cons, List.range_succ_eq_map, List.map_cons, List.map_map]
    simp only [List.getElem?_cons_zero, List.map_cons]
    congr 1
    rw [show ((fun i => (a :: tl)[i]?) ∘ Nat.succ) = (fun i => tl[i]?) from
      funext fun i => List.getElem?_cons_succ, ih]

/-! ### Helper lemmas: round-robin selection -/

theorem availableWorkers_mk (p : List String) (c : Nat) (f : List String)
    (t : List (String × Nat)) :
    (InternalLoadBalancer.mk p c f t).availableWorkers =
      p.filter (fun b => !f.contains b) := rfl

theorem availableWorkers_no_failed (lb : InternalLoadBalancer)
    (h : lb.failedWorkers = []) : lb.availableWorkers = lb.workerBindings := by
  unfold InternalLoadBalancer.availableWorkers
  rw [h]
  exact List.filter_eq_self.mpr fun a _ => by simp [List.contains]

theorem getNextWorker_step (lb : InternalLoadBalancer)
    (h : lb.availableWorkers ≠ []) :
    lb.getNextWorker =
      (lb.availableWorkers.getD (lb.currentIndex % lb.availableWorkers.length) "",
       { lb with currentIndex := lb.currentIndex + 1 }) := by
  unfold InternalLoadBalancer.getNextWorker
  rw [if_neg (by simpa [List.length_eq_zero] using h)]

theorem getNextWorker_reset (lb : InternalLoadBalancer)
    (h : lb.availableWorkers = []) :
    lb.getNextWorker = (lb.workerBindings.headD "", { lb with failedWorkers := [] }) := by
  unfold InternalLoadBalancer.getNextWorker
  rw [if_pos (by simp [h])]

/-- While the unhealthy set stays fixed and nonempty-available, successive
selections walk `available[(c + i) % available.length]`. -/
theorem selectTrace_steady (p f : List String) (t : List (String × Nat))
    (hA : p.filter (fun b => !f.contains b) ≠ []) :
    ∀ (k c : Nat),
      selectTrace ⟨p, c, f, t⟩ k =
        (List.range k).map (fun i =>
          (p.filter (fun b => !f.contains b)).getD
            ((c + i) % (p.filter (fun b => !f.contains b)).length) "") := by
  intro k
  induction k with
  | zero => intro c; simp [selectTrace]
  | succ n ih =>
    intro c
    have hstep := getNextWorker_step ⟨p, c, f, t⟩ hA
    rw [selectTrace]
    rw [hstep]
    dsimp only
    rw [availableWorkers_mk]
    rw [ih (c + 1)]
    rw [List.range_succ_eq_map, List.map_cons, List.map_map]
    congr 1
    apply List.map_congr_left
    intro i _
    dsimp only [Function.comp]
    rw [show c + (i + 1) = c + 1 + i from by omega]

/-- Elements of the steady trace come from the available subset. -/
theorem selectTrace_steady_mem (p f : List String) (t : List (String × Nat))
    (hA : p.filter (fun b => !f.contains b) ≠ []) (k c : Nat) :
    ∀ x ∈ selectTrace ⟨p, c, f, t⟩ k, x ∈ p.filter (fun b => !f.contains b) := by
  intro x hx
  rw [selectTrace_steady p f t hA k c] at hx
  obtain ⟨i, _, hxe⟩ := List.mem_map.mp hx
  have hL : 0 < (p.filter (fun b => !f.contains b)).length :=
    List.length_pos.mpr hA
  have hlt : (c + i) % (p.filter (fun b => !f.contains b)).length <
      (p.filter (fun b => !f.contains b)).length := Nat.mod_lt _ hL
  rw [← hxe, List.getD_eq_getElem?_getD, List.getElem?_eq_getElem hlt]
  exact List.getElem_mem hlt

/-! ### Helper lemmas: loadbalancer.js selection is the same algorithm -/

theorem getNextServer_toILB (lb : ImageGenerationLoadBalancer) :
    lb.getNextServer.1 = lb.toILB.getNextWorker.1 ∧
    lb.getNextServer.2.toILB = lb.toILB.getNextWorker.2 := by
  obtain ⟨p, c, f, t⟩ := lb
  unfold ImageGenerationLoadBalancer.getNextServer InternalLoadBalancer.getNextWorker
  unfold ImageGenerationLoadBalancer.availableServers InternalLoadBalancer.availableWorkers
  unfold ImageGenerationLoadBalancer.toILB
  dsimp only
  split
  · exact ⟨rfl, rfl⟩
  · exact ⟨rfl, rfl⟩

theorem serverTrace_toILB (k : Nat) :
    ∀ lb : ImageGenerationLoadBalancer, serverTrace lb k = selectTrace lb.toILB k := by
  induction k with
  | zero => intro lb; rfl
  | succ n ih =>
    intro lb
    rw [serverTrace, selectTrace]
    rw [(getNextServer_toILB lb).1]
    rw [ih lb.getNextServer.2, (getNextServer_toILB lb).2]

theorem availableServers_toILB (lb : ImageGenerationLoadBalancer) :
    lb.availableServers = lb.toILB.availableWorkers := rfl

/-! ### Helper lemmas: the all-attempts-fail retry loop -/

theorem forwardAttempts_allFail (env : String → FetchOutcome) (now : Nat)
    (h : ∀ w, isFailure (env w) = true) :
    ∀ (fuel : Nat) (lb : InternalLoadBalancer) (le : Option String),
      (forwardAttempts env now fuel lb le).1 = none ∧
      (forwardAttempts env now fuel lb le).2.1 = lastMsg env now fuel lb le := by
  intro fuel
  induction fuel with
  | zero => intro lb le; exact ⟨rfl, rfl⟩
  | succ n ih =>
    intro lb le
    have hw := h lb.getNextWorker.1
    cases henv : env lb.getNextWorker.1 with
    | resp r =>
      rw [henv] at hw
      have hok : r.ok = false := by
        cases hr : r.ok
        · rfl
        · rw [isFailure, hr] at hw; cases hw
      rw [forwardAttempts, lastMsg]
      dsimp only
      rw [henv]
      dsimp only
      rw [hok]
      simp only [Bool.false_eq_true, if_false, failMsg, hok]
      exact ih _ _
    | reject m =>
      rw [forwardAttempts, lastMsg]
      dsimp only
      rw [henv]
      dsimp only [failMsg]
      exact ih _ _

theorem lastMsg_with_some (env : String → FetchOutcome) (now : Nat) :
    ∀ (fuel : Nat) (lb : InternalLoadBalancer) (m : String),
      ∃ m2, lastMsg env now fuel lb (some m) = some m2 := by
  intro fuel
  induction fuel with
  | zero => intro lb m; exact ⟨m, rfl⟩
  | succ n ih =>
    intro lb m
    rw [lastMsg]
    exact ih _ _

/-- With three attempts (the source's `maxRetries`) an all-fail run always
produces a `lastError` message. -/
theorem lastMsg_maxRetries_some (env : String → FetchOutcome) (now : Nat)
    (lb : InternalLoadBalancer) :
    ∃ m, lastMsg env now maxRetries lb none = some m := by
  rw [show maxRetries = 2 + 1 from rfl, lastMsg]
  exact lastMsg_with_some env now 2 _ _

/-! ### Helper lemmas: unhealthy-set expiry -/

theorem markWorkerFailed_mem (lb : InternalLoadBalancer) (w : String) (now : Nat) :
    w ∈ (lb.markWorkerFailed w now).failedWorkers ∧
    (w, now + workerRestoreDelayMs) ∈ (lb.markWorkerFailed w now).restoreTimers := by
  exact ⟨mem_setInsert_self w lb.failedWorkers, List.mem_cons_self _ _⟩

theorem markServerFailed_mem (lb : ImageGenerationLoadBalancer) (s : String) (now : Nat) :
    s ∈ (lb.markServerFailed s now).failedServers ∧
    (s, now + serverRestoreDelayMs) ∈ (lb.markServerFailed s now).restoreTimers := by
  exact ⟨mem_setInsert_self s lb.failedServers, List.mem_cons_self _ _⟩

theorem advanceTime_mem_iff (lb : InternalLoadBalancer) (t : Nat) (w : String) :
    w ∈ (lb.advanceTime t).failedWorkers ↔
      w ∈ lb.failedWorkers ∧
      ¬∃ q ∈ lb.restoreTimers, q.1 = w ∧ q.2 ≤ t := by
  unfold InternalLoadBalancer.advanceTime
  dsimp only
  rw [List.mem_filter]
  constructor
  · rintro ⟨hmem, hpred⟩
    refine ⟨hmem, fun ⟨q, hq, hq1, hq2⟩ => ?_⟩
    have : lb.restoreTimers.any (fun p => p.1 == w && decide (p.2 ≤ t)) = true :=
      List.any_eq_true.mpr ⟨q, hq, by rw [hq1]; simp [hq2]⟩
    rw [this] at hpred
    cases hpred
  · rintro ⟨hmem, hno⟩
    refine ⟨hmem, ?_⟩
    cases hany : lb.restoreTimers.any (fun p => p.1 == w && decide (p.2 ≤ t))
    · rfl
    · obtain ⟨q, hq, hqp⟩ := List.any_eq_true.mp hany
      have hq1 : q.1 = w := by
        have := (Bool.and_eq_true _ _).mp hqp
        exact eq_of_beq this.1
      have hq2 : q.2 ≤ t := by
        have := (Bool.and_eq_true _ _).mp hqp
        exact of_decide_eq_true this.2
      exact absurd ⟨q, hq, hq1, hq2⟩ hno

theorem advanceTimeS_mem_iff (lb : ImageGenerationLoadBalancer) (t : Nat) (s : String) :
    s ∈ (lb.advanceTime t).failedServers ↔
      s ∈ lb.failedServers ∧
      ¬∃ q ∈ lb.restoreTimers, q.1 = s ∧ q.2 ≤ t := by
  unfold ImageGenerationLoadBalancer.advanceTime
  dsimp only
  rw [List.mem_filter]
  constructor
  · rintro ⟨hmem, hpred⟩
    refine ⟨hmem, fun ⟨q, hq, hq1, hq2⟩ => ?_⟩
    have : lb.restoreTimers.any (fun p => p.1 == s && decide (p.2 ≤ t)) = true :=
      List.any_eq_true.mpr ⟨q, hq, by rw [hq1]; simp [hq2]⟩
    rw [this] at hpred
    cases hpred
  · rintro ⟨hmem, hno⟩
    refine ⟨hmem, ?_⟩
    cases hany : lb.restoreTimers.any (fun p => p.1 == s && decide (p.2 ≤ t))
    · rfl
    · obtain ⟨q, hq, hqp⟩ := List.any_eq_true.mp hany
      have hq1 : q.1 = s := by
        have := (Bool.and_eq_true _ _).mp hqp
        exact eq_of_beq this.1
      have hq2 : q.2 ≤ t := by
        have := (Bool.and_eq_true _ _).mp hqp
        exact of_decide_eq_true this.2
      exact absurd ⟨q, hq, hq1, hq2⟩ hno

/-! ### Helper lemmas: credential rotation -/

theorem keyTrace_spec (env : ImageRouterEnv) :
    ∀ (k idx : Nat), idx + k ≤ (apiKeys env).length →
      keyTrace env idx k = (List.range k).map (fun i => (apiKeys env)[idx + i]?) := by
  intro k
  induction k with
  | zero => intro idx _; simp [keyTrace]
  | succ n ih =>
    intro idx h
    have hN : ¬(apiKeys env).length = 0 := by omega
    rw [keyTrace]
    unfold getNextApiKey
    dsimp only
    rw [if_neg hN]
    dsimp only
    rw [List.range_succ_eq_map, List.map_cons, List.map_map]
    congr 1
    cases n with
    | zero => simp [keyTrace]
    | succ m =>
      have hlt : idx + 1 < (apiKeys env).length := by omega
      rw [Nat.mod_eq_of_lt hlt]
      rw [ih (idx + 1) (by omega)]
      apply List.map_congr_left
      intro i _
      dsimp only [Function.comp]
      rw [show idx + (i + 1) = idx + 1 + i from by omega]

/-! ### Helper lemmas: conditional marking in the retry loops -/

theorem forwardAttempts_fail_step (env : String → FetchOutcome) (now fuel : Nat)
    (lb : InternalLoadBalancer) (le : Option String)
    (h : isFailure (env lb.getNextWorker.1) = true) :
    forwardAttempts env now (fuel + 1) lb le =
      forwardAttempts env now fuel
        (if fuel ≠ 0 then lb.getNextWorker.2.markWorkerFailed lb.getNextWorker.1 now
         else lb.getNextWorker.2)
        (some (failMsg (env lb.getNextWorker.1))) := by
  cases henv : env lb.getNextWorker.1 with
  | resp r =>
    have hok : r.ok = false := by
      rw [henv] at h
      cases hr : r.ok
      · rfl
      · rw [isFailure, hr] at h; cases h
    rw [forwardAttempts]
    dsimp only
    rw [henv]
    dsimp only
    rw [hok]
    simp only [Bool.false_eq_true, if_false, failMsg, hok]
  | reject m =>
    rw [forwardAttempts]
    dsimp only
    rw [henv]
    dsimp only [failMsg]

theorem genLoop_fail_step (env : String → GenOutcome) (now mA fuel : Nat)
    (lb : ImageGenerationLoadBalancer) (msg : String) (timedOut : Bool)
    (h : genFailure (env lb.getNextServer.1) = some (msg, timedOut)) :
    genLoop env now mA (fuel + 1) lb =
      (if fuel = 0 then
        (.error ("All " ++ toString mA ++ " server attempts failed. Last error: " ++ msg),
         if timedOut then lb.getNextServer.2.markServerFailed lb.getNextServer.1 now
         else lb.getNextServer.2)
       else
        genLoop env now mA fuel
          (if timedOut then lb.getNextServer.2.markServerFailed lb.getNextServer.1 now
           else lb.getNextServer.2)) := by
  cases henv : env lb.getNextServer.1 with
  | resp r tOut =>
    rw [henv] at h
    rw [genFailure] at h
    by_cases hok : r.ok = true
    · rw [if_pos hok] at h; cases h
    · have hok2 : r.ok = false := by cases hr : r.ok; rfl; exact absurd hr hok
      rw [if_neg hok] at h
      have hmsg : "HTTP " ++ toString r.status ++ ": " ++ r.statusText = msg := by
        have h2 := Option.some.inj h
        exact congrArg Prod.fst h2
      have hto : tOut = timedOut := by
        have h2 := Option.some.inj h
        exact congrArg Prod.snd h2
      rw [genLoop]
      dsimp only
      rw [henv]
      dsimp only
      rw [hok2]
      simp only [Bool.false_eq_true, if_false]
      rw [hmsg, hto]
  | reject m tOut =>
    rw [henv] at h
    rw [genFailure] at h
    have hmsg : m = msg := by
      have h2 := Option.some.inj h
      exact congrArg Prod.fst h2
    have hto : tOut = timedOut := by
      have h2 := Option.some.inj h
      exact congrArg Prod.snd h2
    rw [genLoop]
    dsimp only
    rw [henv]
    dsimp only
    rw [hmsg, hto]

/-! ### Helper lemmas: full-pool and exhausted selection -/

theorem filter_no_failed (l : List String) :
    l.filter (fun b => !([] : List String).contains b) = l :=
  List.filter_eq_self.mpr fun a _ => by simp [List.contains]

theorem selectTrace_full_pool (pool : List String) :
    selectTrace ⟨pool, 0, [], []⟩ pool.length = pool := by
  cases hp : pool with
  | nil => rfl
  | cons a tl =>
    rw [← hp]
    have hA : pool.filter (fun b => !([] : List String).contains b) ≠ [] := by
      rw [filter_no_failed, hp]
      exact List.cons_ne_nil a tl
    rw [selectTrace_steady pool [] [] hA pool.length 0]
    rw [filter_no_failed]
    calc (List.range pool.length).map (fun i => pool.getD ((0 + i) % pool.length) "")
        = (List.range pool.length).map (fun i => pool.getD i "") := by
          apply List.map_congr_left
          intro i hi
          rw [Nat.zero_add, Nat.mod_eq_of_lt (List.mem_range.mp hi)]
      _ = pool := range_map_getD pool ""

theorem getNextWorker_exhausted (lb : InternalLoadBalancer)
    (hne : lb.workerBindings ≠ [])
    (hall : ∀ b ∈ lb.workerBindings, b ∈ lb.failedWorkers) :
    lb.getNextWorker.1 = lb.workerBindings.headD "" ∧
    lb.getNextWorker.1 ∈ lb.workerBindings ∧
    lb.getNextWorker.2.failedWorkers = [] := by
  have hA : lb.availableWorkers = [] := by
    unfold InternalLoadBalancer.availableWorkers
    refine List.filter_eq_nil_iff.mpr fun a ha => ?_
    rw [(contains_true_iff _ _).mpr (hall a ha)]
    simp
  rw [getNextWorker_reset lb hA]
  refine ⟨rfl, ?_, rfl⟩
  cases hp : lb.workerBindings with
  | nil => exact absurd hp hne
  | cons a tl => exact List.mem_cons_self a tl

/-- Claim C3 (confirmed): with every pool member healthy and the cursor at
zero, `pool.length` consecutive selections return exactly the pool, in its
original order, before any repeat — for `getNextWorker` (main-worker.js),
`getNextServer` (loadbalancer.js) and `getNextApiKey` (imageGenerator.js,
over the filtered key pool). -/
theorem C3_round_robin_full_pool :
    (∀ pool : List String,
      selectTrace ⟨pool, 0, [], []⟩ pool.length = pool) ∧
    (∀ pool : List String,
      serverTrace ⟨pool, 0, [], []⟩ pool.length = pool) ∧
    (∀ env : ImageRouterEnv,
      keyTrace env 0 (apiKeys env).length = (apiKeys env).map some) := by
  refine ⟨selectTrace_full_pool, ?_, ?_⟩
  · intro pool
    rw [serverTrace_toILB]
    exact selectTrace_full_pool pool
  · intro env
    rw [keyTrace_spec env (apiKeys env).length 0 (by omega)]
    calc (List.range (apiKeys env).length).map (fun i => (apiKeys env)[0 + i]?)
        = (List.range (apiKeys env).length).map (fun i => (apiKeys env)[i]?) := by
          apply List.map_congr_left
          intro i _
          rw [Nat.zero_add]
      _ = (apiKeys env).map some := range_map_getElemOpt (apiKeys env)

/-- Claim C4 (confirmed): when every pool member is in the unhealthy set,
the next selection still returns a member — the first of the pool — after
clearing the unhealthy set entirely; this holds for both `getNextWorker`
and `getNextServer`. -/
theorem C4_exhaustion_reset :
    (∀ lb : InternalLoadBalancer,
      lb.workerBindings ≠ [] →
      (∀ b ∈ lb.workerBindings, b ∈ lb.failedWorkers) →
      lb.getNextWorker.1 = lb.workerBindings.headD "" ∧
      lb.getNextWorker.1 ∈ lb.workerBindings ∧
      lb.getNextWorker.2.failedWorkers = []) ∧
    (∀ lb : ImageGenerationLoadBalancer,
      lb.servers ≠ [] →
      (∀ b ∈ lb.servers, b ∈ lb.failedServers) →
      lb.getNextServer.1 = lb.servers.headD "" ∧
      lb.getNextServer.1 ∈ lb.servers ∧
      lb.getNextServer.2.failedServers = []) := by
  refine ⟨getNextWorker_exhausted, ?_⟩
  intro lb hne hall
  have h := getNextWorker_exhausted lb.toILB hne hall
  refine ⟨?_, ?_, ?_⟩
  · rw [(getNextServer_toILB lb).1]; exact h.1
  · rw [(getNextServer_toILB lb).1]; exact h.2.1
  · have h2 : lb.getNextServer.2.toILB.failedWorkers = [] := by
      rw [(getNextServer_toILB lb).2]; exact h.2.2
    exact h2

/-- Claim C5 (confirmed): with exactly the members of the (nonempty-complement)
unhealthy set excluded and membership unchanged, every selection returns a
member of the remaining healthy subset, and the rotation is computed over
that compacted subset: the `i`-th selection is
`available[(cursor + i) % available.length]`.  Holds for both
`getNextWorker` and `getNextServer`. -/
theorem C5_reduced_round_robin :
    (∀ (lb : InternalLoadBalancer) (k : Nat),
      lb.availableWorkers ≠ [] →
      selectTrace lb k =
        (List.range k).map (fun i =>
          lb.availableWorkers.getD
            ((lb.currentIndex + i) % lb.availableWorkers.length) "") ∧
      ∀ x ∈ selectTrace lb k, x ∈ lb.availableWorkers) ∧
    (∀ (lb : ImageGenerationLoadBalancer) (k : Nat),
      lb.availableServers ≠ [] →
      serverTrace lb k =
        (List.range k).map (fun i =>
          lb.availableServers.getD
            ((lb.currentServerIndex + i) % lb.availableServers.length) "") ∧
      ∀ x ∈ serverTrace lb k, x ∈ lb.availableServers) := by
  constructor
  · intro lb k hA
    obtain ⟨p, c, f, t⟩ := lb
    rw [availableWorkers_mk] at hA ⊢
    exact ⟨selectTrace_steady p f t hA k c, selectTrace_steady_mem p f t hA k c⟩
  · intro lb k hA
    obtain ⟨p, c, f, t⟩ := lb
    rw [serverTrace_toILB]
    rw [availableServers_toILB] at hA ⊢
    rw [availableWorkers_mk] at hA ⊢
    exact ⟨selectTrace_steady p f t hA k c, selectTrace_steady_mem p f t hA k c⟩

/-- Claim C6 (corrected; see `C6_counterexample`): on every selection with a
nonempty available subset the cursor advances by exactly one and the modulo
by the available-subset size is applied at indexing time (`getNextApiKey`
stores the already-reduced value); but the selection that performs the
full-exhaustion reset returns the first pool member with the cursor left
unchanged. -/
theorem C6_cursor_amended :
    (∀ lb : InternalLoadBalancer,
      lb.availableWorkers ≠ [] →
      lb.getNextWorker.2.currentIndex = lb.currentIndex + 1 ∧
      lb.getNextWorker.1 =
        lb.availableWorkers.getD (lb.currentIndex % lb.availableWorkers.length) "") ∧
    (∀ lb : InternalLoadBalancer,
      lb.availableWorkers = [] →
      lb.getNextWorker.2.currentIndex = lb.currentIndex) ∧
    (∀ lb : ImageGenerationLoadBalancer,
      lb.availableServers ≠ [] →
      lb.getNextServer.2.currentServerIndex = lb.currentServerIndex + 1 ∧
      lb.getNextServer.1 =
        lb.availableServers.getD
          (lb.currentServerIndex % lb.availableServers.length) "") ∧
    (∀ lb : ImageGenerationLoadBalancer,
      lb.availableServers = [] →
      lb.getNextServer.2.currentServerIndex = lb.currentServerIndex) ∧
    (∀ (env : ImageRouterEnv) (idx : Nat),
      apiKeys env ≠ [] →
      getNextApiKey env idx =
        .ok ((apiKeys env)[idx]?, (idx + 1) % (apiKeys env).length)) := by
  refine ⟨?_, ?_, ?_, ?_, ?_⟩
  · intro lb hA
    rw [getNextWorker_step lb hA]
    exact ⟨rfl, rfl⟩
  · intro lb hA
    rw [getNextWorker_reset lb hA]
  · intro lb hA
    rw [availableServers_toILB] at hA ⊢
    have h1 := (getNextServer_toILB lb).1
    have h2 : lb.getNextServer.2.toILB.currentIndex = lb.toILB.getNextWorker.2.currentIndex := by
      rw [(getNextServer_toILB lb).2]
    rw [getNextWorker_step lb.toILB hA] at h1 h2
    exact ⟨h2, h1⟩
  · intro lb hA
    rw [availableServers_toILB] at hA
    have h2 : lb.getNextServer.2.toILB.currentIndex = lb.toILB.getNextWorker.2.currentIndex := by
      rw [(getNextServer_toILB lb).2]
    rw [getNextWorker_reset lb.toILB hA] at h2
    exact h2
  · intro env idx hne
    unfold getNextApiKey
    dsimp only
    rw [if_neg (by simpa [List.length_eq_zero] using hne)]

/-- Claim C6, counterexample: in the full-exhaustion reset state
(pool `[A]`, `A` unhealthy, cursor `5`) the selection does *not* increment
the cursor, contradicting "incremented … on every selection, including the
selection that performs the full-exhaustion reset". -/
theorem C6_counterexample :
    lbResetState.getNextWorker.2.currentIndex ≠ lbResetState.currentIndex + 1 := by
  decide

/-- Claim C9 (confirmed): with an empty filtered credential pool,
`getNextApiKey` throws `'No API keys configured'` (so no outbound call can
proceed); with a nonempty filtered pool and the in-range cursor the rotator
maintains, it returns an actual credential from the filtered pool (in
particular a non-empty one). -/
theorem C9_no_credentials :
    (∀ (env : ImageRouterEnv), apiKeys env = [] →
      ∀ idx, getNextApiKey env idx = .error "No API keys configured") ∧
    (∀ (env : ImageRouterEnv) (idx : Nat), apiKeys env ≠ [] →
      idx < (apiKeys env).length →
      ∃ k, getNextApiKey env idx = .ok (some k, (idx + 1) % (apiKeys env).length) ∧
        k ∈ apiKeys env ∧ k ≠ "") := by
  constructor
  · intro env hempty idx
    unfold getNextApiKey
    dsimp only
    rw [if_pos (by rw [hempty]; rfl)]
  · intro env idx hne hidx
    refine ⟨(apiKeys env)[idx], ?_, ?_, ?_⟩
    · unfold getNextApiKey
      dsimp only
      rw [if_neg (by simpa [List.length_eq_zero] using hne)]
      rw [List.getElem?_eq_getElem hidx]
    · exact List.getElem_mem hidx
    · intro hk
      have hmem := List.getElem_mem hidx
      have hfil := (List.mem_filter.mp hmem).2
      rw [hk] at hfil
      cases hfil

/-! ### Helper lemmas: `forwardRequest` at exhaustion -/

theorem forwardRequest_exhausted_non_fallback (lb : InternalLoadBalancer)
    (req : Request) (env : String → FetchOutcome) (now : Nat)
    (hfail : ∀ w, isFailure (env w) = true)
    (hb : (req.path == "/api/generate-image" && req.method == "POST") = false) :
    (lb.forwardRequest req env now).1 =
      mk503 (lastMsg env now maxRetries lb none) := by
  unfold InternalLoadBalancer.forwardRequest
  dsimp only
  rw [(forwardAttempts_allFail env now hfail maxRetries lb none).1]
  dsimp only
  rw [hb]
  rw [if_neg Bool.false_ne_true]
  dsimp only
  rw [(forwardAttempts_allFail env now hfail maxRetries lb none).2]

theorem forwardRequest_exhausted_gen_image (lb : InternalLoadBalancer)
    (env : String → FetchOutcome) (now : Nat) (p : JSString)
    (hfail : ∀ w, isFailure (env w) = true) :
    (lb.forwardRequest ⟨"/api/generate-image", "POST", some ⟨some (.str p)⟩⟩ env now).1 =
      (if promptValid p then
        match encodeURIComponent (jsTrim p) with
        | .ok encoded => mkFallbackResponse encoded
        | .error _ => mk503 (lastMsg env now maxRetries lb none)
       else mk503 (lastMsg env now maxRetries lb none)) := by
  unfold InternalLoadBalancer.forwardRequest
  dsimp only
  rw [(forwardAttempts_allFail env now hfail maxRetries lb none).1]
  dsimp only
  rw [show (("/api/generate-image" == "/api/generate-image") &&
    ("POST" == "POST")) = true from rfl]
  rw [show (("POST" : String) == "POST") = true from rfl]
  rw [if_pos (rfl : (true : Bool) = true), if_pos (rfl : (true : Bool) = true)]
  dsimp only
  rw [(forwardAttempts_allFail env now hfail maxRetries lb none).2]
  by_cases hv : promptValid p
  · rw [if_pos hv, if_pos hv]
    cases henc : encodeURIComponent (jsTrim p) with
    | ok encoded => rfl
    | error e => rfl
  · rw [if_neg hv, if_neg hv]

/-- Claim C7 (confirmed): for a routed request that is not
`POST /api/generate-image`, when every bounded retry attempt fails
`forwardRequest` returns the explicit 503 failure whose body carries
`'All internal workers unavailable'` and, as `details`, the last observed
backend error's message — never a fallback success (`success` and
`fallback` body fields absent). -/
theorem C7_non_fallback_503 :
    ∀ (lb : InternalLoadBalancer) (req : Request) (env : String → FetchOutcome)
      (now : Nat),
      (∀ w, isFailure (env w) = true) →
      ¬(req.path = "/api/generate-image" ∧ req.method = "POST") →
      (lb.forwardRequest req env now).1.status = 503 ∧
      (lb.forwardRequest req env now).1.error =
        some "All internal workers unavailable" ∧
      (lb.forwardRequest req env now).1.success = none ∧
      (lb.forwardRequest req env now).1.fallback = none ∧
      ∃ m, lastMsg env now maxRetries lb none = some m ∧
        (lb.forwardRequest req env now).1.details =
          some (if m == "" then "Unknown error" else m) := by
  intro lb req env now hfail hnf
  have hb : (req.path == "/api/generate-image" && req.method == "POST") = false := by
    cases hp : req.path == "/api/generate-image"
    · rfl
    · cases hm : req.method == "POST"
      · simp
      · exact absurd ⟨eq_of_beq hp, eq_of_beq hm⟩ hnf
  have hres := forwardRequest_exhausted_non_fallback lb req env now hfail hb
  obtain ⟨m, hm⟩ := lastMsg_maxRetries_some env now lb
  rw [hres, hm]
  exact ⟨rfl, rfl, rfl, rfl, m, rfl, rfl⟩

/-- Claim C1 (corrected; see `C1_counterexample`): for
`POST /api/generate-image` whose snapshotted payload has a valid prompt
*whose URL-encoding succeeds* (no unpaired UTF-16 surrogate), if every
bounded retry attempt fails, `forwardRequest` still returns HTTP 200 with
`success: true`, `fallback: true`, and an image URL derived purely from the
literal prompt — the Pollinations URL of the percent-encoded trimmed
prompt — with no backend involved in producing it (the environment `env`
does not occur in the URL). -/
theorem C1_fallback_success_amended :
    ∀ (lb : InternalLoadBalancer) (env : String → FetchOutcome) (now : Nat)
      (p : JSString) (e : String),
      (∀ w, isFailure (env w) = true) →
      jsTrim p ≠ [] →
      p.length ≤ 1000 →
      encodeURIComponent (jsTrim p) = .ok e →
      (lb.forwardRequest ⟨"/api/generate-image", "POST", some ⟨some (.str p)⟩⟩
          env now).1.status = 200 ∧
      (lb.forwardRequest ⟨"/api/generate-image", "POST", some ⟨some (.str p)⟩⟩
          env now).1.success = some true ∧
      (lb.forwardRequest ⟨"/api/generate-image", "POST", some ⟨some (.str p)⟩⟩
          env now).1.fallback = some true ∧
      (lb.forwardRequest ⟨"/api/generate-image", "POST", some ⟨some (.str p)⟩⟩
          env now).1.imageUrl =
        some ("https://image.pollinations.ai/prompt/" ++ e) := by
  intro lb env now p e hfail htrim hlen henc
  have hp0 : p ≠ [] := by
    intro hp
    rw [hp] at htrim
    exact htrim rfl
  have hv : promptValid p = true := by
    unfold promptValid
    rw [List.isEmpty_eq_false.mpr hp0, List.isEmpty_eq_false.mpr htrim,
      decide_eq_true hlen]
    rfl
  have hres := forwardRequest_exhausted_gen_image lb env now p hfail
  rw [hv, if_pos rfl, henc] at hres
  rw [hres]
  exact ⟨rfl, rfl, rfl, rfl⟩

/-- Claim C1, counterexample: the prompt consisting of one unpaired high
surrogate (code unit `0xD800`) is valid in the claim's sense — non-empty
after trimming and within the 1000-character bound — yet with every retry
attempt failing, `forwardRequest` returns the 503, not a 200 fallback
success, because `encodeURIComponent` throws `URIError` on it. -/
theorem C1_counterexample :
    jsTrim pLoneSurrogate ≠ [] ∧
    pLoneSurrogate.length ≤ 1000 ∧
    promptValid pLoneSurrogate = true ∧
    (lbFresh.forwardRequest reqSurrogate envAllDown 0).1.status = 503 ∧
    (lbFresh.forwardRequest reqSurrogate envAllDown 0).1.status ≠ 200 ∧
    (lbFresh.forwardRequest reqSurrogate envAllDown 0).1.success = none ∧
    (lbFresh.forwardRequest reqSurrogate envAllDown 0).1.fallback = none := by
  decide

/-- Claim C10 (confirmed): if, after all retry attempts are exhausted, the
local fallback construction itself throws — in this code the only throwing
step is `encodeURIComponent` on a prompt with an unpaired surrogate —
`forwardRequest` does not propagate the exception: it still returns the
503 `'All internal workers unavailable'` response (the `try`/`catch`
around the fallback block falls through to the 503). -/
theorem C10_fallback_throw_503 :
    ∀ (lb : InternalLoadBalancer) (env : String → FetchOutcome) (now : Nat)
      (p : JSString) (err : String),
      (∀ w, isFailure (env w) = true) →
      encodeURIComponent (jsTrim p) = .error err →
      (lb.forwardRequest ⟨"/api/generate-image", "POST", some ⟨some (.str p)⟩⟩
          env now).1.status = 503 ∧
      (lb.forwardRequest ⟨"/api/generate-image", "POST", some ⟨some (.str p)⟩⟩
          env now).1.error = some "All internal workers unavailable" := by
  intro lb env now p err hfail henc
  have hres := forwardRequest_exhausted_gen_image lb env now p hfail
  by_cases hv : promptValid p
  · rw [hv, if_pos rfl, henc] at hres
    rw [hres]
    exact ⟨rfl, rfl⟩
  · rw [if_neg hv] at hres
    rw [hres]
    exact ⟨rfl, rfl⟩

/-- When the available subset is the single server `x`, every further
selection returns `x`. -/
theorem selectTrace_const_single (p f : List String) (t : List (String × Nat))
    (x : String) (h : p.filter (fun b => !f.contains b) = [x]) (k c : Nat) :
    selectTrace ⟨p, c, f, t⟩ k = List.replicate k x := by
  rw [selectTrace_steady p f t (by rw [h]; exact List.cons_ne_nil x []) k c]
  refine List.eq_replicate_iff.mpr ⟨by simp, ?_⟩
  intro y hy
  obtain ⟨i, _, hie⟩ := List.mem_map.mp hy
  rw [h] at hie
  rw [← hie, List.length_cons, List.length_nil, Nat.mod_one, List.getD_cons_zero]

/-- Claim C2, counterexample: failures are *not* always recorded.
From the fresh `[A, B, C]` balancer with every backend failing, the retry
loop attempts `A`, then `C`, then `B`; `B`'s call fails but `B` is not in
the unhealthy set afterwards (the final attempt never marks).  Likewise,
with `A` failing, `B` failing and `C` healthy, the fresh run attempts `A`
then `C` — it returns `C`'s response but only `A` is marked, not `B`.
And in `generateImage` a non-timeout failure marks nothing at all. -/
theorem C2_counterexample :
    attemptTrace 0 3 lbFresh = ["A", "C", "B"] ∧
    isFailure (envAllDown "B") = true ∧
    "B" ∉ (lbFresh.forwardRequest reqHealth envAllDown 0).2.failedWorkers ∧
    (lbFresh.forwardRequest reqHealth envABfail 0).1 = okResp ∧
    "B" ∉ (lbFresh.forwardRequest reqHealth envABfail 0).2.failedWorkers ∧
    genFailure (envGenDown "A") = some ("A down", false) ∧
    (lbServersFresh.generateImage envGenDown 0).2.failedServers = [] := by
  decide

/-- Claim C2 (corrected; see `C2_counterexample`): `markWorkerFailed` /
`markServerFailed` add the backend to the unhealthy set with the fixed
expiry window (2 resp. 5 minutes); `forwardRequest` invokes the marking for
a failed call only while attempts remain, and `generateImage` only for
timeout-like failures.  In the concrete scenario — pool `[A, B, C]`, bound
3, from the rotation state whose attempts visit `A`, then `B`, then `C`
(cursor 3), with `A` and `B` failing and `C` healthy — the result is `C`'s
success response, `A` and `B` are unhealthy with expiry `now + 2 min`, and
every subsequent selection before expiry returns `C`. -/
theorem C2_marking_amended :
    (∀ (lb : InternalLoadBalancer) (w : String) (now : Nat),
      w ∈ (lb.markWorkerFailed w now).failedWorkers ∧
      (w, now + workerRestoreDelayMs) ∈ (lb.markWorkerFailed w now).restoreTimers) ∧
    (∀ (lb : ImageGenerationLoadBalancer) (s : String) (now : Nat),
      s ∈ (lb.markServerFailed s now).failedServers ∧
      (s, now + serverRestoreDelayMs) ∈ (lb.markServerFailed s now).restoreTimers) ∧
    (∀ (env : String → FetchOutcome) (now fuel : Nat)
      (lb : InternalLoadBalancer) (le : Option String),
      isFailure (env lb.getNextWorker.1) = true →
      forwardAttempts env now (fuel + 1) lb le =
        forwardAttempts env now fuel
          (if fuel ≠ 0 then lb.getNextWorker.2.markWorkerFailed lb.getNextWorker.1 now
           else lb.getNextWorker.2)
          (some (failMsg (env lb.getNextWorker.1)))) ∧
    (∀ (env : String → GenOutcome) (now mA fuel : Nat)
      (lb : ImageGenerationLoadBalancer) (msg : String) (timedOut : Bool),
      genFailure (env lb.getNextServer.1) = some (msg, timedOut) →
      genLoop env now mA (fuel + 1) lb =
        (if fuel = 0 then
          (.error ("All " ++ toString mA ++ " server attempts failed. Last error: " ++ msg),
           if timedOut then lb.getNextServer.2.markServerFailed lb.getNextServer.1 now
           else lb.getNextServer.2)
         else
          genLoop env now mA fuel
            (if timedOut then lb.getNextServer.2.markServerFailed lb.getNextServer.1 now
             else lb.getNextServer.2))) ∧
    ((lbCursor3.forwardRequest reqHealth envABfail 0).1 = okResp ∧
     "A" ∈ (lbCursor3.forwardRequest reqHealth envABfail 0).2.failedWorkers ∧
     "B" ∈ (lbCursor3.forwardRequest reqHealth envABfail 0).2.failedWorkers ∧
     ("A", workerRestoreDelayMs) ∈
       (lbCursor3.forwardRequest reqHealth envABfail 0).2.restoreTimers ∧
     ("B", workerRestoreDelayMs) ∈
       (lbCursor3.forwardRequest reqHealth envABfail 0).2.restoreTimers ∧
     ∀ k, selectTrace (lbCursor3.forwardRequest reqHealth envABfail 0).2 k =
       List.replicate k "C") := by
  refine ⟨markWorkerFailed_mem, markServerFailed_mem,
    forwardAttempts_fail_step, genLoop_fail_step, ?_, ?_, ?_, ?_, ?_, ?_⟩
  · decide
  · decide
  · decide
  · decide
  · decide
  · intro k
    have hF : (lbCursor3.forwardRequest reqHealth envABfail 0).2 =
        ⟨["A", "B", "C"], 6, ["B", "A"],
         [("B", workerRestoreDelayMs), ("A", workerRestoreDelayMs)]⟩ := by decide
    rw [hF]
    exact selectTrace_const_single ["A", "B", "C"] ["B", "A"]
      [("B", workerRestoreDelayMs), ("A", workerRestoreDelayMs)] "C" (by decide) k 6

/-- Claim C8 (confirmed): a backend placed in the unhealthy set by
`markWorkerFailed` (2-minute window) or `markServerFailed` (5-minute
window) stays excluded strictly until its expiry fires and, from the
moment the window elapses — with no external reset — is removed from the
unhealthy set, belongs to the available subset again, and can be returned
by a selection. -/
theorem C8_expiry_recovery :
    (∀ (lb : InternalLoadBalancer) (b : String) (now : Nat),
      (∀ q ∈ lb.restoreTimers, q.1 ≠ b) →
      (∀ t, t < now + workerRestoreDelayMs →
        b ∈ ((lb.markWorkerFailed b now).advanceTime t).failedWorkers) ∧
      (∀ t, now + workerRestoreDelayMs ≤ t →
        b ∉ ((lb.markWorkerFailed b now).advanceTime t).failedWorkers) ∧
      (∀ t, now + workerRestoreDelayMs ≤ t → b ∈ lb.workerBindings →
        b ∈ ((lb.markWorkerFailed b now).advanceTime t).availableWorkers ∧
        ∃ i, ({ (lb.markWorkerFailed b now).advanceTime t with
                currentIndex := i } : InternalLoadBalancer).getNextWorker.1 = b)) ∧
    (∀ (lb : ImageGenerationLoadBalancer) (b : String) (now : Nat),
      (∀ q ∈ lb.restoreTimers, q.1 ≠ b) →
      (∀ t, t < now + serverRestoreDelayMs →
        b ∈ ((lb.markServerFailed b now).advanceTime t).failedServers) ∧
      (∀ t, now + serverRestoreDelayMs ≤ t →
        b ∉ ((lb.markServerFailed b now).advanceTime t).failedServers) ∧
      (∀ t, now + serverRestoreDelayMs ≤ t → b ∈ lb.servers →
        b ∈ ((lb.markServerFailed b now).advanceTime t).availableServers ∧
        ∃ i, ({ (lb.markServerFailed b now).advanceTime t with
                currentServerIndex := i } :
              ImageGenerationLoadBalancer).getNextServer.1 = b)) := by
  constructor
  · intro lb b now hq
    have hnot : ∀ t, now + workerRestoreDelayMs ≤ t →
        b ∉ ((lb.markWorkerFailed b now).advanceTime t).failedWorkers := by
      intro t ht hmem
      obtain ⟨-, hno⟩ := (advanceTime_mem_iff _ t b).mp hmem
      exact hno ⟨(b, now + workerRestoreDelayMs), List.mem_cons_self _ _, rfl, ht⟩
    refine ⟨?_, hnot, ?_⟩
    · intro t ht
      refine (advanceTime_mem_iff _ t b).mpr
        ⟨(markWorkerFailed_mem lb b now).1, ?_⟩
      rintro ⟨q, hqmem, hq1, hq2⟩
      rcases List.mem_cons.mp hqmem with hhead | htail
      · rw [hhead] at hq2
        omega
      · exact hq q htail hq1
    · intro t ht hbp
      have hmemA : b ∈ ((lb.markWorkerFailed b now).advanceTime t).availableWorkers := by
        refine List.mem_filter.mpr ⟨hbp, ?_⟩
        rw [(contains_false_iff _ b).mpr (hnot t ht)]
        rfl
      refine ⟨hmemA, ?_⟩
      obtain ⟨i, hi, hie⟩ := List.mem_iff_getElem.mp hmemA
      refine ⟨i, ?_⟩
      rw [getNextWorker_step _ (by exact List.ne_nil_of_mem hmemA)]
      show ((lb.markWorkerFailed b now).advanceTime t).availableWorkers.getD
        (i % ((lb.markWorkerFailed b now).advanceTime t).availableWorkers.length) "" = b
      rw [Nat.mod_eq_of_lt hi, List.getD_eq_getElem?_getD,
        List.getElem?_eq_getElem hi]
      exact hie
  · intro lb b now hq
    have hnot : ∀ t, now + serverRestoreDelayMs ≤ t →
        b ∉ ((lb.markServerFailed b now).advanceTime t).failedServers := by
      intro t ht hmem
      obtain ⟨-, hno⟩ := (advanceTimeS_mem_iff _ t b).mp hmem
      exact hno ⟨(b, now + serverRestoreDelayMs), List.mem_cons_self _ _, rfl, ht⟩
    refine ⟨?_, hnot, ?_⟩
    · intro t ht
      refine (advanceTimeS_mem_iff _ t b).mpr
        ⟨(markServerFailed_mem lb b now).1, ?_⟩
      rintro ⟨q, hqmem, hq1, hq2⟩
      rcases List.mem_cons.mp hqmem with hhead | htail
      · rw [hhead] at hq2
        omega
      · exact hq q htail hq1
    · intro t ht hbp
      have hmemA : b ∈ ((lb.markServerFailed b now).advanceTime t).availableServers := by
        refine List.mem_filter.mpr ⟨hbp, ?_⟩
        rw [(contains_false_iff _ b).mpr (hnot t ht)]
        rfl
      refine ⟨hmemA, ?_⟩
      obtain ⟨i, hi, hie⟩ := List.mem_iff_getElem.mp hmemA
      refine ⟨i, ?_⟩
      have hbr := (getNextServer_toILB
        ({ (lb.markServerFailed b now).advanceTime t with currentServerIndex := i })).1
      rw [hbr]
      rw [getNextWorker_step _ (by exact List.ne_nil_of_mem hmemA)]
      show ((lb.markServerFailed b now).advanceTime t).availableServers.getD
        (i % ((lb.markServerFailed b now).advanceTime t).availableServers.length) "" = b
      rw [Nat.mod_eq_of_lt hi, List.getD_eq_getElem?_getD,
        List.getElem?_eq_getElem hi]
      exact hie

/-! ### Witnesses: each hypothesis-bearing claim theorem applied at a
concrete input -/

/-- Claim C1, witness: the amended theorem at prompt `"a grey square"` with
every backend failing. -/
theorem C1_witness :
    (lbFresh.forwardRequest ⟨"/api/generate-image", "POST",
        some ⟨some (.str pGrey)⟩⟩ envAllDown 0).1.status = 200 ∧
    (lbFresh.forwardRequest ⟨"/api/generate-image", "POST",
        some ⟨some (.str pGrey)⟩⟩ envAllDown 0).1.success = some true ∧
    (lbFresh.forwardRequest ⟨"/api/generate-image", "POST",
        some ⟨some (.str pGrey)⟩⟩ envAllDown 0).1.fallback = some true ∧
    (lbFresh.forwardRequest ⟨"/api/generate-image", "POST",
        some ⟨some (.str pGrey)⟩⟩ envAllDown 0).1.imageUrl =
      some ("https://image.pollinations.ai/prompt/" ++ "a%20grey%20square") :=
  C1_fallback_success_amended lbFresh envAllDown 0 pGrey "a%20grey%20square"
    (fun _ => rfl) (by decide) (by decide) rfl

/-- Claim C2, witness: the conditional-marking conjuncts of the amended
theorem at concrete inputs (a final-attempt failure on the main-worker loop
and a first-attempt non-timeout failure on the `generateImage` loop). -/
theorem C2_witness :
    (forwardAttempts envAllDown 0 1 lbFresh none =
      forwardAttempts envAllDown 0 0
        (if (0 : Nat) ≠ 0 then
          lbFresh.getNextWorker.2.markWorkerFailed lbFresh.getNextWorker.1 0
         else lbFresh.getNextWorker.2)
        (some (failMsg (envAllDown lbFresh.getNextWorker.1)))) ∧
    (genLoop envGenDown 0 3 1 lbServersFresh =
      (if (0 : Nat) = 0 then
        (.error ("All " ++ toString 3 ++ " server attempts failed. Last error: " ++
          "A down"),
         if false then
           lbServersFresh.getNextServer.2.markServerFailed
             lbServersFresh.getNextServer.1 0
         else lbServersFresh.getNextServer.2)
       else
        genLoop envGenDown 0 3 0
          (if false then
            lbServersFresh.getNextServer.2.markServerFailed
              lbServersFresh.getNextServer.1 0
           else lbServersFresh.getNextServer.2))) :=
  ⟨C2_marking_amended.2.2.1 envAllDown 0 0 lbFresh none (by decide),
   C2_marking_amended.2.2.2.1 envGenDown 0 3 0 lbServersFresh "A down" false (by decide)⟩

/-- Claim C4, witness: the reset theorem at pool `[A]` with `A` unhealthy. -/
theorem C4_witness :
    lbResetState.getNextWorker.1 = lbResetState.workerBindings.headD "" ∧
    lbResetState.getNextWorker.1 ∈ lbResetState.workerBindings ∧
    lbResetState.getNextWorker.2.failedWorkers = [] :=
  C4_exhaustion_reset.1 lbResetState (by decide) (by decide)

/-- Claim C5, witness: four selections over pool `[A, B, C]` with `B`
unhealthy follow the compacted rotation `[A, C, A, C]`. -/
theorem C5_witness :
    selectTrace lbBFailed 4 =
      (List.range 4).map (fun i =>
        lbBFailed.availableWorkers.getD
          ((lbBFailed.currentIndex + i) % lbBFailed.availableWorkers.length) "") ∧
    ∀ x ∈ selectTrace lbBFailed 4, x ∈ lbBFailed.availableWorkers :=
  C5_reduced_round_robin.1 lbBFailed 4 (by decide)

/-- Claim C6, witness: the amended cursor rules at concrete states — a
normal selection increments, the reset selection does not, and the key
rotator stores the reduced cursor. -/
theorem C6_witness :
    (lbFresh.getNextWorker.2.currentIndex = lbFresh.currentIndex + 1 ∧
     lbFresh.getNextWorker.1 =
       lbFresh.availableWorkers.getD
         (lbFresh.currentIndex % lbFresh.availableWorkers.length) "") ∧
    lbResetState.getNextWorker.2.currentIndex = lbResetState.currentIndex ∧
    getNextApiKey envKeys147 1 =
      .ok ((apiKeys envKeys147)[1]?, (1 + 1) % (apiKeys envKeys147).length) :=
  ⟨C6_cursor_amended.1 lbFresh (by decide),
   C6_cursor_amended.2.1 lbResetState (by decide),
   C6_cursor_amended.2.2.2.2 envKeys147 1 (by decide)⟩

/-- Claim C7, witness: the 503 theorem at `GET /api/health` with every
backend failing. -/
theorem C7_witness :
    (lbFresh.forwardRequest reqHealth envAllDown 0).1.status = 503 ∧
    (lbFresh.forwardRequest reqHealth envAllDown 0).1.error =
      some "All internal workers unavailable" ∧
    (lbFresh.forwardRequest reqHealth envAllDown 0).1.success = none ∧
    (lbFresh.forwardRequest reqHealth envAllDown 0).1.fallback = none ∧
    ∃ m, lastMsg envAllDown 0 maxRetries lbFresh none = some m ∧
      (lbFresh.forwardRequest reqHealth envAllDown 0).1.details =
        some (if m == "" then "Unknown error" else m) :=
  C7_non_fallback_503 lbFresh reqHealth envAllDown 0 (fun _ => rfl) (by decide)

/-- Claim C8, witness: marking `A` at time 10 in pool `[A, B]` keeps `A`
unhealthy at time 0 and restores it at time `10 + 2 min`, when a selection
can return it again. -/
theorem C8_witness :
    "A" ∈ ((lbPairAB.markWorkerFailed "A" 10).advanceTime 0).failedWorkers ∧
    "A" ∉ ((lbPairAB.markWorkerFailed "A" 10).advanceTime 120010).failedWorkers ∧
    "A" ∈ ((lbPairAB.markWorkerFailed "A" 10).advanceTime 120010).availableWorkers ∧
    ∃ i, ({ (lbPairAB.markWorkerFailed "A" 10).advanceTime 120010 with
            currentIndex := i } : InternalLoadBalancer).getNextWorker.1 = "A" := by
  have h := C8_expiry_recovery.1 lbPairAB "A" 10 (by decide)
  exact ⟨h.1 0 (by decide), h.2.1 120010 (by decide),
    (h.2.2 120010 (by decide) (by decide)).1, (h.2.2 120010 (by decide) (by decide)).2⟩

/-- Claim C9, witness: the empty pool errs; the pool `["k1", "k4", "k7"]`
at cursor 1 yields a configured key. -/
theorem C9_witness :
    getNextApiKey envKeysNone 0 = .error "No API keys configured" ∧
    ∃ k, getNextApiKey envKeys147 1 =
        .ok (some k, (1 + 1) % (apiKeys envKeys147).length) ∧
      k ∈ apiKeys envKeys147 ∧ k ≠ "" :=
  ⟨C9_no_credentials.1 envKeysNone (by decide) 0,
   C9_no_credentials.2 envKeys147 1 (by decide) (by decide)⟩

/-- Claim C10, witness: the lone-surrogate prompt makes the fallback
construction throw, and the result is still the 503. -/
theorem C10_witness :
    (lbFresh.forwardRequest ⟨"/api/generate-image", "POST",
        some ⟨some (.str pLoneSurrogate)⟩⟩ envAllDown 0).1.status = 503 ∧
    (lbFresh.forwardRequest ⟨"/api/generate-image", "POST",
        some ⟨some (.str pLoneSurrogate)⟩⟩ envAllDown 0).1.error =
      some "All internal workers unavailable" :=
  C10_fallback_throw_503 lbFresh envAllDown 0 pLoneSurrogate "URI malformed"
    (fun _ => rfl) rfl

end PromptLearning
